import Mathlib

/-!
# Service invocation over HTTP: `service/http/invoke.go`

A shallow embedding of `(*Server).AddServiceInvocationHandler` and of the
request pipeline it binds to a route, followed by theorems about
registration, authentication, event capture, carrier metadata and response
writing.

Go values are represented as follows.

* `string` is `String`; `[]byte` is `ByteSlice`, which keeps the nil slice
  (`none`) apart from a non-nil slice of length zero (`some []`).
* `error` is `Option String`: `none` is the nil error, `some m` an error whose
  `Error()` text is `m`.
* `map[string][]string` (`http.Header`, `metadata.MD`) is the list of its
  entries in iteration order.
* The response writer records the header map, the status line and the bytes
  written to it, together with the error its `Write` reports. As the `net/http`
  server does, the first write of data adds a sniffed `Content-Type` when the
  header map has none; the sniffing table `http.DetectContentType` is a
  parameter.
* The router is the sequence of `Handle` calls it has received.
* Every call of the user handler and every read of the request body is logged
  in a trace, so that "the handler is not invoked" is a statement about the
  trace.
-/

namespace DaprHttp

/-! ## Byte slices and strings -/

/-- Go `[]byte`: `none` is the nil slice, `some bs` a non-nil slice. -/
abbrev ByteSlice := Option (List UInt8)

/-- The bytes held by a slice; the nil slice holds none. -/
def ByteSlice.bytes : ByteSlice → List UInt8
  | none => []
  | some bs => bs

/-- The UTF-8 bytes of a string, as written by `fmt.Fprintln` and `[]byte(s)`. -/
def stringBytes (s : String) : List UInt8 :=
  s.data.flatMap String.utf8EncodeChar

/-- Go `strings.HasPrefix`. -/
def HasPrefix (s p : String) : Bool :=
  p.data.isPrefixOf s.data

/-- Go `strings.ToLower`, on the ASCII letters a header field name is made of. -/
def ToLower (s : String) : String :=
  String.mk (s.data.map Char.toLower)

/-! ## `map[string][]string` -/

/-- Entries of a Go `map[string][]string`. -/
abbrev Entries := List (String × List String)

/-- Map assignment `m[k] = v`. -/
def Entries.assign (m : Entries) (k : String) (v : List String) : Entries :=
  (k, v) :: m.filter (fun e => e.1 != k)

/-- Map deletion `delete(m, k)`. -/
def Entries.delete (m : Entries) (k : String) : Entries :=
  m.filter (fun e => e.1 != k)

/-! ## `net/http` headers -/

/-- Bytes allowed in a header field name (`textproto.validHeaderFieldByte`). -/
def validHeaderFieldByte (c : Char) : Bool :=
  c.isAlphanum || "!#$%&*+-.^_|~".data.contains c || c == Char.ofNat 39 || c == Char.ofNat 96

/-- Inner loop of `textproto.canonicalMIMEHeaderKey`: upper case at the start
and after each dash, lower case elsewhere. -/
def canonicalize : Bool → List Char → List Char
  | _, [] => []
  | upper, c :: cs =>
    let d := if upper && c.isLower then c.toUpper
             else if !upper && c.isUpper then c.toLower else c
    d :: canonicalize (d == '-') cs

/-- Go `textproto.CanonicalMIMEHeaderKey`: a key holding a byte that is not
allowed in a field name is returned unchanged. -/
def CanonicalMIMEHeaderKey (s : String) : String :=
  if s.data.all validHeaderFieldByte then String.mk (canonicalize true s.data) else s

/-- Go `http.Header`. -/
structure Header where
  entries : Entries
deriving DecidableEq

/-- Go `Header.Get`: first value under the canonical key, `""` when there is none. -/
def Header.Get (h : Header) (key : String) : String :=
  match h.entries.lookup (CanonicalMIMEHeaderKey key) with
  | some (v :: _) => v
  | _ => ""

/-- Go `Header.Set`. -/
def Header.Set (h : Header) (key value : String) : Header :=
  ⟨h.entries.assign (CanonicalMIMEHeaderKey key) [value]⟩

/-- Go `Header.Del`. -/
def Header.Del (h : Header) (key : String) : Header :=
  ⟨h.entries.delete (CanonicalMIMEHeaderKey key)⟩

/-! ## `google.golang.org/grpc/metadata` -/

/-- Go `metadata.MD`. -/
structure MD where
  entries : Entries
deriving DecidableEq

/-- The empty metadata `metadata.MD{}`. -/
def MD.empty : MD := ⟨[]⟩

/-- Go `MD.Set`: no values, no change; otherwise the lower-cased key is assigned. -/
def MD.Set (md : MD) (k : String) (vals : List String) : MD :=
  if vals.isEmpty then md else ⟨md.entries.assign (ToLower k) vals⟩

/-- Go `MD.Get`: the values under the lower-cased key. -/
def MD.Get (md : MD) (k : String) : List String :=
  (md.entries.lookup (ToLower k)).getD []

/-- The part of a `context.Context` this code reads and writes: the value
stored under the incoming-metadata key. -/
structure Context where
  incomingMD : Option MD
deriving DecidableEq

/-- Go `metadata.FromIncomingContext`: a copy of the stored metadata with every
key lower-cased, or nothing when the context carries none. -/
def FromIncomingContext (ctx : Context) : Option MD :=
  match ctx.incomingMD with
  | none => none
  | some md => some ⟨md.entries.foldl (fun out kv => out.assign (ToLower kv.1) kv.2) []⟩

/-- Go `metadata.NewIncomingContext`. -/
def NewIncomingContext (_ctx : Context) (md : MD) : Context :=
  { incomingMD := some md }

/-! ## Requests -/

/-- Request body stream, given by what `io.ReadAll` returns for it. -/
structure Body where
  data : List UInt8
  err : Option String
deriving DecidableEq

/-- Go `io.ReadAll`: the bytes read (never the nil slice) and the read error. -/
def ReadAll (b : Body) : ByteSlice × Option String :=
  (some b.data, b.err)

/-- Go `url.URL`, the field read here. -/
structure URL where
  RawQuery : String
deriving DecidableEq

/-- Go `http.Request`, the fields read here. -/
structure Request where
  Method : String
  URL : URL
  Header : Header
  Body : Option Body
  Context : Context
deriving DecidableEq

/-! ## Response writer -/

/-- Response writer: a recorder of the header map, the status line and the
bytes written, with the error `Write` reports to its caller. -/
structure ResponseWriter where
  header : Header
  status : Option Nat
  body : List UInt8
  writeErr : Option String
deriving DecidableEq

/-- A response nothing has been written to, as a request starts with. -/
def NewRecorder (writeErr : Option String) : ResponseWriter :=
  { header := ⟨[]⟩, status := none, body := [], writeErr := writeErr }

/-- Status code of the response: 200 unless a status line was written. -/
def ResponseWriter.Code (w : ResponseWriter) : Nat :=
  w.status.getD 200

/-- Go `ResponseWriter.WriteHeader`: only the first status line counts. -/
def ResponseWriter.WriteHeader (w : ResponseWriter) (code : Nat) : ResponseWriter :=
  match w.status with
  | none => { w with status := some code }
  | some _ => w

/-- The header map after the content-type sniffing of `ResponseWriter.Write`:
when the map has no `Content-Type` and no `Transfer-Encoding`, and the bytes
are the first data of the body, `Content-Type` is set to what
`http.DetectContentType` (here `detect`) makes of their first 512 bytes. -/
def sniffContentType (detect : List UInt8 → String) (w : ResponseWriter)
    (p : List UInt8) : Header :=
  if (w.header.entries.lookup "Content-Type").isNone
      && (w.header.Get "Transfer-Encoding" == "")
      && w.body.isEmpty && !p.isEmpty then
    w.header.Set "Content-Type" (detect (p.take 512))
  else w.header

/-- Go `ResponseWriter.Write`: adds a sniffed `Content-Type` if the header map
has none, writes the status line 200 if none was written, records the bytes,
and reports the writer's error. -/
def ResponseWriter.Write (w : ResponseWriter) (detect : List UInt8 → String)
    (p : List UInt8) : ResponseWriter × Option String :=
  let h := sniffContentType detect w p
  let w1 := w.WriteHeader 200
  ({ w1 with header := h, body := w1.body ++ p }, w.writeErr)

/-- Status code `http.StatusNonAuthoritativeInfo`. -/
def StatusNonAuthoritativeInfo : Nat := 203

/-- Status code `http.StatusBadRequest`. -/
def StatusBadRequest : Nat := 400

/-- Status code `http.StatusInternalServerError`. -/
def StatusInternalServerError : Nat := 500

/-- Go `http.Error`: plain-text headers, the status line, then the message as
one line. -/
def http.Error (detect : List UInt8 → String) (w : ResponseWriter) (error : String)
    (code : Nat) : ResponseWriter :=
  let h := w.header.Del "Content-Length"
  let h := h.Set "Content-Type" "text/plain; charset=utf-8"
  let h := h.Set "X-Content-Type-Options" "nosniff"
  let w := { w with header := h }
  let w := w.WriteHeader code
  (w.Write detect (stringBytes (error ++ "\n"))).1

/-! ## The `common` package and the server -/

/-- Modelled from the spec: the `InvocationEvent` type of package `common`,
declared outside `service/http/invoke.go`; one inbound request, with the four
fields the pipeline fills (verb, raw query string, content type, data). -/
structure InvocationEvent where
  Verb : String
  QueryString : String
  ContentType : String
  Data : ByteSlice
deriving DecidableEq

/-- Modelled from the spec: the invocation result type of package `common`
returned by a handler, declared outside `service/http/invoke.go`; an optional
content type and an optional byte payload. -/
structure InvocationResult where
  ContentType : String
  Data : ByteSlice
deriving DecidableEq

/-- Modelled from the spec: the handler capability
`common.ServiceInvocationHandler`, declared outside `service/http/invoke.go`;
it takes the carrier context and the event and returns a result or nil, and an
error or nil. -/
abbrev ServiceInvocationHandler :=
  Context → InvocationEvent → Option InvocationResult × Option String

/-- What running the pipeline does besides writing the response. -/
inductive Effect where
  | readBody
  | invoke (ctx : Context) (e : InvocationEvent)
deriving DecidableEq

/-- Number of calls of the user handler in a trace. -/
def callCount : List Effect → Nat
  | [] => 0
  | Effect.invoke _ _ :: t => callCount t + 1
  | Effect.readBody :: t => callCount t

/-- Result of serving one request: the response written and the trace. -/
structure Outcome where
  w : ResponseWriter
  trace : List Effect
deriving DecidableEq

/-- Go `http.Handler`, run on a response writer and a request. -/
abbrev Handler := ResponseWriter → Request → Outcome

/-- Names that `service/http/invoke.go` relies on and does not define: the
header name `common.APITokenKey` and the wrapper `optionsHandler` of the
repository, and the sniffing table `http.DetectContentType` behind
`ResponseWriter.Write`. -/
structure Env where
  APITokenKey : String
  optionsHandler : Handler → Handler
  DetectContentType : List UInt8 → String

/-- Router `s.mux`: the `Handle` calls received, oldest first. -/
structure ServeMux where
  routes : List (String × Handler)

/-- Go `mux.Handle`. -/
def ServeMux.Handle (m : ServeMux) (pattern : String) (h : Handler) : ServeMux :=
  ⟨m.routes ++ [(pattern, h)]⟩

/-- Modelled from the spec: the `Server` type, declared outside
`service/http/invoke.go`; the process-wide shared secret and the route table. -/
structure Server where
  authToken : String
  mux : ServeMux

/-! ## `service/http/invoke.go` -/

/-- Lines 51-64: the event captured from the request, and the error of reading
the body. Without a body stream nothing is read and `Data` stays nil. -/
def captureEvent (r : Request) : InvocationEvent × Option String × List Effect :=
  let e : InvocationEvent :=
    { Verb := r.Method
      QueryString := r.URL.RawQuery
      ContentType := r.Header.Get "Content-type"
      Data := none }
  match r.Body with
  | some body => ({ e with Data := (ReadAll body).1 }, (ReadAll body).2, [Effect.readBody])
  | none => (e, none, [])

/-- Lines 66-74: the context handed to the handler; the incoming metadata, or
the empty metadata, with every request header set on it. -/
def carrierContext (r : Request) : Context :=
  let ctx := r.Context
  let md := (FromIncomingContext ctx).getD MD.empty
  let md := r.Header.entries.foldl (fun md kv => md.Set kv.1 kv.2) md
  NewIncomingContext ctx md

/-- Lines 83-92: the response written for a handler result. -/
def writeResult (detect : List UInt8 → String) (w : ResponseWriter)
    (o : Option InvocationResult) : ResponseWriter :=
  match o with
  | some o =>
    match o.Data with
    | some data =>
      let w := if o.ContentType ≠ "" then
        { w with header := w.header.Set "Content-type" o.ContentType } else w
      match w.Write detect data with
      | (w, some err) => http.Error detect w err StatusInternalServerError
      | (w, none) => w
    | none => w
  | none => w

/-- Lines 42-93: the function bound to the route, before `optionsHandler`
wraps it. -/
def invocationHandler (env : Env) (s : Server) (fn : ServiceInvocationHandler) : Handler :=
  fun w r =>
    let token := r.Header.Get env.APITokenKey
    if s.authToken ≠ "" ∧ (token = "" ∨ token ≠ s.authToken) then
      { w := http.Error env.DetectContentType w "authentication failed."
          StatusNonAuthoritativeInfo
        trace := [] }
    else
      match captureEvent r with
      | (_, some err, t) =>
        { w := http.Error env.DetectContentType w err StatusBadRequest, trace := t }
      | (e, none, t) =>
        let ctx := carrierContext r
        match fn ctx e with
        | (_, some err) =>
          { w := http.Error env.DetectContentType w err StatusInternalServerError
            trace := t ++ [Effect.invoke ctx e] }
        | (o, none) =>
          { w := writeResult env.DetectContentType w o
            trace := t ++ [Effect.invoke ctx e] }

/-- Lines 37-39: a route that lacks the leading separator gets one. -/
def normalizeRoute (route : String) : String :=
  if !HasPrefix route "/" then "/" ++ route else route

/-- Lines 28-96: `(*Server).AddServiceInvocationHandler`; the server after the
call and the error returned. A nil handler is `none`. -/
def AddServiceInvocationHandler (env : Env) (s : Server) (route : String)
    (fn : Option ServiceInvocationHandler) : Server × Option String :=
  if route = "" ∨ route = "/" then
    (s, some "service route required")
  else
    match fn with
    | none => (s, some "invocation handler required")
    | some fn =>
      let route := normalizeRoute route
      ({ s with mux := s.mux.Handle route (env.optionsHandler (invocationHandler env s fn)) },
        none)

/-! ## Sample values -/

/-- Bytes that `http.DetectContentType` takes as a sign of binary data. -/
def isBinaryByte (b : UInt8) : Bool :=
  b.toNat ≤ 8 || b.toNat == 11 || (14 ≤ b.toNat && b.toNat ≤ 26)
    || (28 ≤ b.toNat && b.toNat ≤ 31)

/-- The last two rules of `http.DetectContentType`, for data that matches none
of its signatures: text when no byte is binary, a byte stream otherwise. -/
def sniffUnsigned (data : List UInt8) : String :=
  if data.any isBinaryByte then "application/octet-stream"
  else "text/plain; charset=utf-8"

/-- An environment with the usual token header name, a wrapper that hands
every request on, and the sniffing of data without signature. -/
def sampleEnv : Env :=
  { APITokenKey := "dapr-api-token"
    optionsHandler := fun h => h
    DetectContentType := sniffUnsigned }

/-- A server with the secret `"secret"` and no route. -/
def sampleServer : Server :=
  { authToken := "secret", mux := ⟨[]⟩ }

/-- A handler that returns the content type and data it was given. -/
def echoHandler : ServiceInvocationHandler :=
  fun _ e => (some ⟨e.ContentType, e.Data⟩, none)

/-- A handler that fails with `"boom"` and still returns a result. -/
def failingHandler : ServiceInvocationHandler :=
  fun _ _ => (some ⟨"application/json", some [1, 2, 3]⟩, some "boom")

/-- A POST request with a token, a content type, a two-byte body and one
metadata key on its context. -/
def sampleRequest : Request :=
  { Method := "POST"
    URL := ⟨"a=1"⟩
    Header := ⟨[("Content-Type", ["text/plain"]), ("Dapr-Api-Token", ["secret"])]⟩
    Body := some ⟨[104, 105], none⟩
    Context := ⟨some ⟨[("b", ["2"])]⟩⟩ }

/-- A handler that returns a content type and a nil payload. -/
def typedNilHandler : ServiceInvocationHandler :=
  fun _ _ => (some ⟨"text/plain", none⟩, none)

/-- A handler that returns a content type and a non-nil payload of length zero. -/
def typedEmptyHandler : ServiceInvocationHandler :=
  fun _ _ => (some ⟨"text/plain", some []⟩, none)

/-- A handler that returns one byte of data and no content type. -/
def untypedHandler : ServiceInvocationHandler :=
  fun _ _ => (some ⟨"", some [1]⟩, none)

/-- A handler that returns a nil result and no error. -/
def nilHandler : ServiceInvocationHandler :=
  fun _ _ => (none, none)

/-- The sample request without any header. -/
def anonymousRequest : Request :=
  { sampleRequest with Header := ⟨[]⟩ }

/-- The trace of reading the body: one read when there is a body stream. -/
def bodyTrace (r : Request) : List Effect :=
  match r.Body with
  | some _ => [Effect.readBody]
  | none => []

/-- A server without a secret: the authenticator lets every request pass. -/
def openServer : Server :=
  { authToken := "", mux := ⟨[]⟩ }

/-- A request with the header `A: 1` whose context carries the metadata `B: 2`. -/
def headerARequest : Request :=
  { Method := "GET"
    URL := ⟨""⟩
    Header := ⟨[("A", ["1"])]⟩
    Body := none
    Context := ⟨some ⟨[("B", ["2"])]⟩⟩ }

/-- A request with a header key `B` that has no value, on a context whose
metadata has the key `b`. -/
def valuelessHeaderRequest : Request :=
  { Method := "GET"
    URL := ⟨""⟩
    Header := ⟨[("B", [])]⟩
    Body := none
    Context := ⟨some ⟨[("b", ["2"])]⟩⟩ }

/-- A request with two header keys that differ in letter case only. -/
def collidingHeaderRequest : Request :=
  { Method := "GET"
    URL := ⟨""⟩
    Header := ⟨[("A", ["1"]), ("a", ["2"])]⟩
    Body := none
    Context := ⟨none⟩ }

/-- The contexts the user handler was called with, in order. -/
def handlerContexts : List Effect → List Context
  | [] => []
  | Effect.invoke ctx _ :: t => ctx :: handlerContexts t
  | Effect.readBody :: t => handlerContexts t

/-! ## Strings and routes -/

theorem hasPrefix_slash_append (r : String) : HasPrefix ("/" ++ r) "/" = true := by
  simp [HasPrefix, String.data_append]

theorem slash_append_ne_empty (r : String) : "/" ++ r ≠ "" := by
  intro h
  have := congrArg String.data h
  simp [String.data_append] at this

theorem slash_append_ne_slash (r : String) (hr : r ≠ "") : "/" ++ r ≠ "/" := by
  intro h
  have h1 := congrArg String.data h
  simp [String.data_append] at h1
  exact hr (String.ext h1)

theorem normalizeRoute_of_bare (r : String) (h : HasPrefix r "/" = false) :
    normalizeRoute r = "/" ++ r := by
  simp [normalizeRoute, h]

theorem normalizeRoute_of_rooted (r : String) (h : HasPrefix r "/" = true) :
    normalizeRoute r = r := by
  simp [normalizeRoute, h]

theorem hasPrefix_normalizeRoute (r : String) : HasPrefix (normalizeRoute r) "/" = true := by
  cases h : HasPrefix r "/"
  · rw [normalizeRoute_of_bare r h]; exact hasPrefix_slash_append r
  · rw [normalizeRoute_of_rooted r h]; exact h

theorem normalizeRoute_ne_empty (r : String) (hr : r ≠ "") : normalizeRoute r ≠ "" := by
  cases h : HasPrefix r "/"
  · rw [normalizeRoute_of_bare r h]; exact slash_append_ne_empty r
  · rw [normalizeRoute_of_rooted r h]; exact hr

theorem normalizeRoute_ne_slash (r : String) (hr : r ≠ "") (hs : r ≠ "/") :
    normalizeRoute r ≠ "/" := by
  cases h : HasPrefix r "/"
  · rw [normalizeRoute_of_bare r h]; exact slash_append_ne_slash r hr
  · rw [normalizeRoute_of_rooted r h]; exact hs

theorem add_of_valid (env : Env) (s : Server) (route : String) (fn : ServiceInvocationHandler)
    (hr : route ≠ "") (hs : route ≠ "/") :
    AddServiceInvocationHandler env s route (some fn) =
      ({ s with mux := s.mux.Handle (normalizeRoute route)
                  (env.optionsHandler (invocationHandler env s fn)) }, none) := by
  simp [AddServiceInvocationHandler, hr, hs]

theorem add_success_iff (env : Env) (s : Server) (route : String)
    (fn : Option ServiceInvocationHandler) :
    (AddServiceInvocationHandler env s route fn).2 = none ↔
      route ≠ "" ∧ route ≠ "/" ∧ fn.isSome = true := by
  unfold AddServiceInvocationHandler
  by_cases h : route = "" ∨ route = "/"
  · rw [if_pos h]
    simp only [reduceCtorEq, false_iff, not_and]
    intro h1 h2
    rcases h with h | h
    · exact absurd h h1
    · exact absurd h h2
  · rw [if_neg h]
    push_neg at h
    cases fn <;> simp [h.1, h.2]

/-! ## Registration -/

/-- C3: registering with the empty route or with the bare root path, whatever
the handler (nil or not), returns the error "service route required" and leaves
the server, hence its routing table, exactly as it was. -/
theorem invalid_route_rejected (env : Env) (s : Server) (route : String)
    (fn : Option ServiceInvocationHandler) (h : route = "" ∨ route = "/") :
    AddServiceInvocationHandler env s route fn = (s, some "service route required") ∧
      (AddServiceInvocationHandler env s route fn).1.mux.routes = s.mux.routes := by
  have hret : AddServiceInvocationHandler env s route fn =
      (s, some "service route required") := by
    unfold AddServiceInvocationHandler
    rw [if_pos h]
  rw [hret]
  exact ⟨rfl, rfl⟩

theorem invalid_route_rejected_witness :
    ("/" = "" ∨ "/" = "/") ∧
      AddServiceInvocationHandler sampleEnv sampleServer "/" (some echoHandler) =
        (sampleServer, some "service route required") :=
  ⟨Or.inr rfl, (invalid_route_rejected sampleEnv sampleServer "/" (some echoHandler)
    (Or.inr rfl)).1⟩

/-- C4, as stated, fails: with the empty route and a nil handler the error
returned is the invalid-route error, not the missing-handler error. -/
theorem nil_handler_empty_route_counterexample :
    (AddServiceInvocationHandler sampleEnv sampleServer "" none).2 =
        some "service route required" ∧
      (AddServiceInvocationHandler sampleEnv sampleServer "" none).2 ≠
        some "invocation handler required" := by
  decide

/-- C4, amended: registering a nil handler never binds a route and always
returns an error; for every route other than the empty route and the bare root
path that error is "invocation handler required". -/
theorem nil_handler_rejected (env : Env) (s : Server) (route : String)
    (hr : route ≠ "") (hs : route ≠ "/") :
    AddServiceInvocationHandler env s route none = (s, some "invocation handler required") ∧
      ∀ route2 : String,
        (AddServiceInvocationHandler env s route2 none).1 = s ∧
        (AddServiceInvocationHandler env s route2 none).2 ≠ none := by
  refine ⟨by simp [AddServiceInvocationHandler, hr, hs], fun route2 => ?_⟩
  unfold AddServiceInvocationHandler
  by_cases h : route2 = "" ∨ route2 = "/"
  · rw [if_pos h]; simp
  · rw [if_neg h]; simp

theorem nil_handler_rejected_witness :
    "svc" ≠ "" ∧ "svc" ≠ "/" ∧
      AddServiceInvocationHandler sampleEnv sampleServer "svc" none =
        (sampleServer, some "invocation handler required") :=
  ⟨by decide, by decide,
    (nil_handler_rejected sampleEnv sampleServer "svc" (by decide) (by decide)).1⟩

/-- C5: for a non-empty route `r` without a leading "/" and a non-nil handler,
registering `r` succeeds and leaves the server in the same state as registering
"/" ++ r: one new binding, of the key "/" ++ r to the wrapped pipeline of the
handler. Normalizing a route twice is normalizing it once. Every successful
registration adds one binding whose key is not empty, is not "/" and begins
with "/". -/
theorem route_auto_prefixed (env : Env) (s : Server) (r : String)
    (fn : ServiceInvocationHandler) (hne : r ≠ "") (hpre : HasPrefix r "/" = false) :
    (AddServiceInvocationHandler env s r (some fn) =
        AddServiceInvocationHandler env s ("/" ++ r) (some fn) ∧
      (AddServiceInvocationHandler env s r (some fn)).2 = none ∧
      (AddServiceInvocationHandler env s r (some fn)).1.mux.routes =
        s.mux.routes ++ [("/" ++ r, env.optionsHandler (invocationHandler env s fn))]) ∧
    (∀ route : String, normalizeRoute (normalizeRoute route) = normalizeRoute route) ∧
    (∀ (route : String) (h : Option ServiceInvocationHandler) (s2 : Server),
      AddServiceInvocationHandler env s route h = (s2, none) →
      ∃ (p : String) (bound : Handler),
        s2.mux.routes = s.mux.routes ++ [(p, bound)] ∧ s2.authToken = s.authToken ∧
        p ≠ "" ∧ p ≠ "/" ∧ HasPrefix p "/" = true) := by
  have hs : r ≠ "/" := by
    intro h
    rw [h] at hpre
    exact absurd hpre (by decide)
  refine ⟨⟨?_, ?_, ?_⟩, ?_, ?_⟩
  · rw [add_of_valid env s r fn hne hs,
      add_of_valid env s ("/" ++ r) fn (slash_append_ne_empty r) (slash_append_ne_slash r hne),
      normalizeRoute_of_bare r hpre,
      normalizeRoute_of_rooted _ (hasPrefix_slash_append r)]
  · rw [add_of_valid env s r fn hne hs]
  · rw [add_of_valid env s r fn hne hs, normalizeRoute_of_bare r hpre]
    rfl
  · intro route
    exact normalizeRoute_of_rooted _ (hasPrefix_normalizeRoute route)
  · intro route h s2 hadd
    have hok := (add_success_iff env s route h).1 (by rw [hadd])
    obtain ⟨h1, h2, h3⟩ := hok
    cases h with
    | none => simp at h3
    | some fn2 =>
      rw [add_of_valid env s route fn2 h1 h2] at hadd
      have hs2 := (Prod.mk.inj hadd).1
      refine ⟨normalizeRoute route, env.optionsHandler (invocationHandler env s fn2), ?_, ?_,
        normalizeRoute_ne_empty route h1, normalizeRoute_ne_slash route h1 h2,
        hasPrefix_normalizeRoute route⟩
      · rw [← hs2]; rfl
      · rw [← hs2]

theorem route_auto_prefixed_witness :
    "foo" ≠ "" ∧ HasPrefix "foo" "/" = false ∧
      AddServiceInvocationHandler sampleEnv sampleServer "foo" (some echoHandler) =
        AddServiceInvocationHandler sampleEnv sampleServer "/foo" (some echoHandler) :=
  ⟨by decide, by decide,
    (route_auto_prefixed sampleEnv sampleServer "foo" echoHandler (by decide) (by decide)).1.1⟩

/-! ## The pipeline -/

theorem stringBytes_line (m : String) : stringBytes (m ++ "\n") = stringBytes m ++ [10] := by
  simp only [stringBytes, String.data_append, List.flatMap_append]
  rfl

theorem captureEvent_event (r : Request) :
    (captureEvent r).1 =
      { Verb := r.Method
        QueryString := r.URL.RawQuery
        ContentType := r.Header.Get "Content-type"
        Data := r.Body.map (fun b => b.data) } := by
  unfold captureEvent
  cases r.Body <;> rfl

theorem captureEvent_trace (r : Request) : (captureEvent r).2.2 = bodyTrace r := by
  unfold captureEvent bodyTrace
  cases r.Body <;> rfl

theorem captureEvent_err (r : Request) (hbody : ∀ b, r.Body = some b → b.err = none) :
    (captureEvent r).2.1 = none := by
  unfold captureEvent
  cases hb : r.Body with
  | none => rfl
  | some b => simpa [ReadAll] using hbody b hb

theorem handler_of_rejected (env : Env) (s : Server) (fn : ServiceInvocationHandler)
    (w : ResponseWriter) (r : Request) (htok : s.authToken ≠ "")
    (hbad : r.Header.Get env.APITokenKey = "" ∨ r.Header.Get env.APITokenKey ≠ s.authToken) :
    invocationHandler env s fn w r =
      { w := http.Error env.DetectContentType w "authentication failed."
          StatusNonAuthoritativeInfo
        trace := [] } := by
  unfold invocationHandler
  simp only
  rw [if_pos ⟨htok, hbad⟩]

theorem handler_of_admitted (env : Env) (s : Server) (fn : ServiceInvocationHandler)
    (w : ResponseWriter) (r : Request)
    (hauth : s.authToken = "" ∨ r.Header.Get env.APITokenKey = s.authToken)
    (hbody : ∀ b, r.Body = some b → b.err = none) :
    invocationHandler env s fn w r =
      match fn (carrierContext r) (captureEvent r).1 with
      | (_, some err) =>
        { w := http.Error env.DetectContentType w err StatusInternalServerError
          trace := bodyTrace r ++ [Effect.invoke (carrierContext r) (captureEvent r).1] }
      | (o, none) =>
        { w := writeResult env.DetectContentType w o
          trace := bodyTrace r ++ [Effect.invoke (carrierContext r) (captureEvent r).1] } := by
  have hno : ¬ (s.authToken ≠ "" ∧
      (r.Header.Get env.APITokenKey = "" ∨ r.Header.Get env.APITokenKey ≠ s.authToken)) := by
    rintro ⟨h1, h2⟩
    rcases hauth with h | h
    · exact h1 h
    · rcases h2 with h2 | h2
      · exact h1 (h.symm.trans h2)
      · exact h2 h
  have herr := captureEvent_err r hbody
  have htr := captureEvent_trace r
  unfold invocationHandler
  simp only
  rw [if_neg hno]
  rcases hce : captureEvent r with ⟨e, err, t⟩
  rw [hce] at herr htr
  simp only at herr htr
  subst herr
  subst htr
  rfl

theorem callCount_bodyTrace_invoke (r : Request) (ctx : Context) (e : InvocationEvent) :
    callCount (bodyTrace r ++ [Effect.invoke ctx e]) = 1 := by
  unfold bodyTrace
  cases r.Body <;> rfl

theorem error_on_recorder (detect : List UInt8 → String) (we : Option String) (m : String)
    (code : Nat) :
    (http.Error detect (NewRecorder we) m code).Code = code ∧
      (http.Error detect (NewRecorder we) m code).body = stringBytes m ++ [10] ∧
      (http.Error detect (NewRecorder we) m code).header.Get "Content-Type" =
        "text/plain; charset=utf-8" := by
  refine ⟨rfl, ?_, ?_⟩
  · show [] ++ stringBytes (m ++ "\n") = _
    rw [stringBytes_line]
    rfl
  · have h : (http.Error detect (NewRecorder we) m code).header =
        (((Header.mk []).Del "Content-Length").Set "Content-Type"
          "text/plain; charset=utf-8").Set "X-Content-Type-Options" "nosniff" := rfl
    rw [h]
    decide

/-- C1: on a server with a non-empty auth token, a request whose token header
is absent, empty or different from the token never reaches the user handler:
the trace of the pipeline is empty (no body read, no handler call, call count
0), the only thing written is the authentication-failure reply, and the outcome
is the same whatever the handler is. -/
theorem auth_failure_halts (env : Env) (s : Server) (fn : ServiceInvocationHandler)
    (w : ResponseWriter) (r : Request) (htok : s.authToken ≠ "")
    (hbad : r.Header.entries.lookup (CanonicalMIMEHeaderKey env.APITokenKey) = none ∨
      r.Header.Get env.APITokenKey = "" ∨ r.Header.Get env.APITokenKey ≠ s.authToken) :
    (invocationHandler env s fn w r).trace = [] ∧
      callCount (invocationHandler env s fn w r).trace = 0 ∧
      (invocationHandler env s fn w r).w =
        http.Error env.DetectContentType w "authentication failed."
          StatusNonAuthoritativeInfo ∧
      ∀ fn2 : ServiceInvocationHandler,
        invocationHandler env s fn2 w r = invocationHandler env s fn w r := by
  have hbad2 : r.Header.Get env.APITokenKey = "" ∨
      r.Header.Get env.APITokenKey ≠ s.authToken := by
    rcases hbad with h | h | h
    · left
      unfold Header.Get
      rw [h]
    · exact Or.inl h
    · exact Or.inr h
  have h := handler_of_rejected env s fn w r htok hbad2
  refine ⟨by rw [h], by rw [h]; rfl, by rw [h], fun fn2 => ?_⟩
  rw [h, handler_of_rejected env s fn2 w r htok hbad2]

theorem auth_failure_halts_witness :
    sampleServer.authToken ≠ "" ∧
      anonymousRequest.Header.entries.lookup
        (CanonicalMIMEHeaderKey sampleEnv.APITokenKey) = none ∧
      (invocationHandler sampleEnv sampleServer echoHandler (NewRecorder none)
        anonymousRequest).trace = [] :=
  ⟨by decide, by decide,
    (auth_failure_halts sampleEnv sampleServer echoHandler (NewRecorder none) anonymousRequest
      (by decide) (Or.inl (by decide))).1⟩

/-- C2: the code departs from the claim. Every request the authenticator
rejects is answered, on a fresh response, with status 203, which lies inside
200..299; the body is the line "authentication failed.". -/
theorem auth_failure_status (env : Env) (s : Server) (fn : ServiceInvocationHandler)
    (we : Option String) (r : Request) (htok : s.authToken ≠ "")
    (hbad : r.Header.Get env.APITokenKey = "" ∨ r.Header.Get env.APITokenKey ≠ s.authToken) :
    (invocationHandler env s fn (NewRecorder we) r).w.Code = 203 ∧
      200 ≤ (invocationHandler env s fn (NewRecorder we) r).w.Code ∧
      (invocationHandler env s fn (NewRecorder we) r).w.Code ≤ 299 ∧
      (invocationHandler env s fn (NewRecorder we) r).w.body =
        stringBytes "authentication failed." ++ [10] := by
  rw [handler_of_rejected env s fn (NewRecorder we) r htok hbad]
  have h := error_on_recorder env.DetectContentType we "authentication failed."
    StatusNonAuthoritativeInfo
  refine ⟨h.1, ?_, ?_, h.2.1⟩
  · rw [h.1]; decide
  · rw [h.1]; decide

theorem auth_failure_status_witness :
    sampleServer.authToken ≠ "" ∧
      anonymousRequest.Header.Get sampleEnv.APITokenKey = "" ∧
      (invocationHandler sampleEnv sampleServer echoHandler (NewRecorder none)
        anonymousRequest).w.Code = 203 :=
  ⟨by decide, by decide,
    (auth_failure_status sampleEnv sampleServer echoHandler none anonymousRequest
      (by decide) (Or.inl (by decide))).1⟩

theorem sampleRequest_readable : ∀ b, sampleRequest.Body = some b → b.err = none := by
  intro b hb
  injection hb with hb
  subst hb
  rfl

theorem get_set_on_empty (X : String) :
    ((Header.mk []).Set "Content-type" X).Get "Content-type" = X := by
  simp [Header.Get, Header.Set, Entries.assign]

theorem writeResult_typed (detect : List UInt8 → String) (X : String) (D : List UInt8)
    (hX : X ≠ "") :
    writeResult detect (NewRecorder none) (some ⟨X, some D⟩) =
      { header := (Header.mk []).Set "Content-type" X
        status := some 200, body := D, writeErr := none } := by
  have hc : CanonicalMIMEHeaderKey "Content-type" = "Content-Type" := by decide
  have hs : sniffContentType detect
      { header := (Header.mk []).Set "Content-type" X, status := none, body := [],
        writeErr := none } D = (Header.mk []).Set "Content-type" X := by
    simp [sniffContentType, Header.Set, Entries.assign, hc]
  unfold writeResult
  simp only [ne_eq, hX, not_false_eq_true, if_true, NewRecorder, ResponseWriter.Write, hs]
  rfl

theorem writeResult_untyped (detect : List UInt8 → String) (D : List UInt8) :
    writeResult detect (NewRecorder none) (some ⟨"", some D⟩) =
      { header := if D.isEmpty then ⟨[]⟩ else (Header.mk []).Set "Content-Type"
          (detect (D.take 512))
        status := some 200, body := D, writeErr := none } := by
  unfold writeResult
  cases D with
  | nil => rfl
  | cons b bs => rfl

/-- C9: a request that passes authentication and whose body, if any, is read
without error makes exactly one call of the handler, after at most the read of
the body. The event handed over has the request method as verb, the raw query
string, the content-type header (the empty string when the header is absent)
and the whole body as data; without a body stream the data is nil, hence
empty, and the call is still made. -/
theorem handler_invoked_once (env : Env) (s : Server) (fn : ServiceInvocationHandler)
    (w : ResponseWriter) (r : Request)
    (hauth : s.authToken = "" ∨ r.Header.Get env.APITokenKey = s.authToken)
    (hbody : ∀ b, r.Body = some b → b.err = none) :
    ∃ e : InvocationEvent,
      (invocationHandler env s fn w r).trace =
        bodyTrace r ++ [Effect.invoke (carrierContext r) e] ∧
      callCount (invocationHandler env s fn w r).trace = 1 ∧
      e.Verb = r.Method ∧
      e.QueryString = r.URL.RawQuery ∧
      e.ContentType = r.Header.Get "Content-type" ∧
      (r.Header.entries.lookup (CanonicalMIMEHeaderKey "Content-type") = none →
        e.ContentType = "") ∧
      (∀ b, r.Body = some b → e.Data = some b.data) ∧
      (r.Body = none → e.Data = none ∧ e.Data.bytes = []) := by
  have htrace : (invocationHandler env s fn w r).trace =
      bodyTrace r ++ [Effect.invoke (carrierContext r) (captureEvent r).1] := by
    rw [handler_of_admitted env s fn w r hauth hbody]
    rcases hfn : fn (carrierContext r) (captureEvent r).1 with ⟨o, err⟩
    cases err <;> rfl
  refine ⟨(captureEvent r).1, htrace, ?_, ?_⟩
  · rw [htrace]
    exact callCount_bodyTrace_invoke r _ _
  · rw [captureEvent_event]
    refine ⟨rfl, rfl, rfl, ?_, ?_, ?_⟩
    · intro h
      show r.Header.Get "Content-type" = ""
      unfold Header.Get
      rw [h]
    · intro b hb
      simp [hb]
    · intro hb
      simp [hb, ByteSlice.bytes]

theorem handler_invoked_once_witness :
    (sampleServer.authToken = "" ∨
        sampleRequest.Header.Get sampleEnv.APITokenKey = sampleServer.authToken) ∧
      ∃ e : InvocationEvent,
        (invocationHandler sampleEnv sampleServer echoHandler (NewRecorder none)
          sampleRequest).trace =
          bodyTrace sampleRequest ++ [Effect.invoke (carrierContext sampleRequest) e] ∧
        callCount (invocationHandler sampleEnv sampleServer echoHandler (NewRecorder none)
          sampleRequest).trace = 1 ∧
        e.Verb = "POST" :=
  ⟨Or.inr (by decide),
    let ⟨e, h1, h2, h3, _⟩ := handler_invoked_once sampleEnv sampleServer echoHandler
      (NewRecorder none) sampleRequest (Or.inr (by decide)) sampleRequest_readable
    ⟨e, h1, h2, h3⟩⟩

/-- C7: when the handler returns an error, whatever result comes with it, the
response is exactly the reply `http.Error` makes from the error text and the
internal-server-error status: on a fresh response the status is 500, the body
is the error text written as one line, and the content type is the plain-text
one of the error reply. Nothing of the returned result is written: the
response does not depend on it. The handler was called once. -/
theorem handler_error_reply (env : Env) (s : Server) (fn : ServiceInvocationHandler)
    (w : ResponseWriter) (r : Request) (o : Option InvocationResult) (msg : String)
    (hauth : s.authToken = "" ∨ r.Header.Get env.APITokenKey = s.authToken)
    (hbody : ∀ b, r.Body = some b → b.err = none)
    (hfn : fn (carrierContext r) (captureEvent r).1 = (o, some msg)) :
    (invocationHandler env s fn w r).w =
        http.Error env.DetectContentType w msg StatusInternalServerError ∧
      callCount (invocationHandler env s fn w r).trace = 1 ∧
      (∀ we : Option String,
        (invocationHandler env s fn (NewRecorder we) r).w.Code = 500 ∧
        (invocationHandler env s fn (NewRecorder we) r).w.body = stringBytes msg ++ [10] ∧
        (invocationHandler env s fn (NewRecorder we) r).w.header.Get "Content-Type" =
          "text/plain; charset=utf-8") ∧
      ∀ (fn2 : ServiceInvocationHandler) (o2 : Option InvocationResult),
        fn2 (carrierContext r) (captureEvent r).1 = (o2, some msg) →
        (invocationHandler env s fn2 w r).w = (invocationHandler env s fn w r).w := by
  have h : ∀ (f : ServiceInvocationHandler) (o1 : Option InvocationResult)
      (w2 : ResponseWriter), f (carrierContext r) (captureEvent r).1 = (o1, some msg) →
      invocationHandler env s f w2 r =
      { w := http.Error env.DetectContentType w2 msg StatusInternalServerError
        trace := bodyTrace r ++ [Effect.invoke (carrierContext r) (captureEvent r).1] } := by
    intro f o1 w2 hf
    rw [handler_of_admitted env s f w2 r hauth hbody, hf]
  refine ⟨by rw [h fn o w hfn], ?_, fun we => ?_, fun fn2 o2 hfn2 => ?_⟩
  · rw [h fn o w hfn]
    exact callCount_bodyTrace_invoke r _ _
  · rw [h fn o (NewRecorder we) hfn]
    exact error_on_recorder env.DetectContentType we msg StatusInternalServerError
  · rw [h fn o w hfn, h fn2 o2 w hfn2]

theorem handler_error_reply_witness :
    (sampleServer.authToken = "" ∨
        sampleRequest.Header.Get sampleEnv.APITokenKey = sampleServer.authToken) ∧
      failingHandler (carrierContext sampleRequest) (captureEvent sampleRequest).1 =
        (some ⟨"application/json", some [1, 2, 3]⟩, some "boom") ∧
      (invocationHandler sampleEnv sampleServer failingHandler (NewRecorder none)
        sampleRequest).w.Code = 500 ∧
      (invocationHandler sampleEnv sampleServer failingHandler (NewRecorder none)
        sampleRequest).w.body = stringBytes "boom" ++ [10] :=
  ⟨Or.inr (by decide), rfl,
    ((handler_error_reply sampleEnv sampleServer failingHandler (NewRecorder none)
      sampleRequest _ "boom" (Or.inr (by decide)) sampleRequest_readable rfl).2.2.1 none).1,
    ((handler_error_reply sampleEnv sampleServer failingHandler (NewRecorder none)
      sampleRequest _ "boom" (Or.inr (by decide)) sampleRequest_readable rfl).2.2.1 none).2.1⟩

/-- C6, as stated, fails three times. A result with content type "text/plain"
and nil data leaves the response without that content type. When the write of
the data reports an error the body is no longer the data alone and the content
type is that of the error reply. A result with the empty content type and one
byte of data gets the content type sniffed from the data, which is not the
empty one. -/
theorem round_trip_counterexample :
    typedNilHandler (carrierContext sampleRequest) (captureEvent sampleRequest).1 =
        (some ⟨"text/plain", none⟩, none) ∧
      (invocationHandler sampleEnv sampleServer typedNilHandler (NewRecorder none)
        sampleRequest).w.header.Get "Content-type" ≠ "text/plain" ∧
      echoHandler (carrierContext sampleRequest) (captureEvent sampleRequest).1 =
        (some ⟨"text/plain", some [104, 105]⟩, none) ∧
      (invocationHandler sampleEnv sampleServer echoHandler (NewRecorder (some "broken pipe"))
        sampleRequest).w.body ≠ [104, 105] ∧
      (invocationHandler sampleEnv sampleServer echoHandler (NewRecorder (some "broken pipe"))
        sampleRequest).w.header.Get "Content-type" ≠ "text/plain" ∧
      untypedHandler (carrierContext sampleRequest) (captureEvent sampleRequest).1 =
        (some ⟨"", some [1]⟩, none) ∧
      (invocationHandler sampleEnv sampleServer untypedHandler (NewRecorder none)
        sampleRequest).w.header.Get "Content-type" = "application/octet-stream" ∧
      (invocationHandler sampleEnv sampleServer untypedHandler (NewRecorder none)
        sampleRequest).w.header.Get "Content-type" ≠ "" := by
  decide

theorem reply_of_data (env : Env) (s : Server) (fn : ServiceInvocationHandler)
    (r : Request) (X : String) (D : List UInt8)
    (hauth : s.authToken = "" ∨ r.Header.Get env.APITokenKey = s.authToken)
    (hbody : ∀ b, r.Body = some b → b.err = none)
    (hfn : fn (carrierContext r) (captureEvent r).1 = (some ⟨X, some D⟩, none)) :
    (invocationHandler env s fn (NewRecorder none) r).w.body = D ∧
      (invocationHandler env s fn (NewRecorder none) r).w.Code = 200 ∧
      (X ≠ "" →
        (invocationHandler env s fn (NewRecorder none) r).w.header.Get "Content-type" = X) ∧
      (D = [] →
        (invocationHandler env s fn (NewRecorder none) r).w.header.Get "Content-type" = X ∧
        (X = "" →
          (invocationHandler env s fn (NewRecorder none) r).w.header.entries = [])) := by
  have hw : (invocationHandler env s fn (NewRecorder none) r).w =
      writeResult env.DetectContentType (NewRecorder none) (some ⟨X, some D⟩) := by
    rw [handler_of_admitted env s fn (NewRecorder none) r hauth hbody, hfn]
  rw [hw]
  by_cases hX : X = ""
  · subst hX
    rw [writeResult_untyped]
    refine ⟨rfl, rfl, fun h => absurd rfl h, fun hD => ?_⟩
    subst hD
    exact ⟨rfl, fun _ => rfl⟩
  · rw [writeResult_typed _ X D hX]
    exact ⟨rfl, rfl, fun _ => get_set_on_empty X,
      fun _ => ⟨get_set_on_empty X, fun h => absurd h hX⟩⟩

/-- C6, amended: for a request that passes authentication and whose body is
read without error, if the handler returns no error and a result with content
type X and non-nil data D, and the write of D reports no error, then the body
of the response is exactly D and its status is the default 200, and, when X is
not empty, the response has content type X. -/
theorem round_trip (env : Env) (s : Server) (fn : ServiceInvocationHandler)
    (r : Request) (X : String) (D : List UInt8)
    (hauth : s.authToken = "" ∨ r.Header.Get env.APITokenKey = s.authToken)
    (hbody : ∀ b, r.Body = some b → b.err = none)
    (hfn : fn (carrierContext r) (captureEvent r).1 = (some ⟨X, some D⟩, none)) :
    (invocationHandler env s fn (NewRecorder none) r).w.body = D ∧
      (invocationHandler env s fn (NewRecorder none) r).w.Code = 200 ∧
      (X ≠ "" →
        (invocationHandler env s fn (NewRecorder none) r).w.header.Get "Content-type" = X) :=
  ⟨(reply_of_data env s fn r X D hauth hbody hfn).1,
    (reply_of_data env s fn r X D hauth hbody hfn).2.1,
    (reply_of_data env s fn r X D hauth hbody hfn).2.2.1⟩

theorem round_trip_witness :
    (sampleServer.authToken = "" ∨
        sampleRequest.Header.Get sampleEnv.APITokenKey = sampleServer.authToken) ∧
      echoHandler (carrierContext sampleRequest) (captureEvent sampleRequest).1 =
        (some ⟨"text/plain", some [104, 105]⟩, none) ∧
      (invocationHandler sampleEnv sampleServer echoHandler (NewRecorder none)
        sampleRequest).w.header.Get "Content-type" = "text/plain" ∧
      (invocationHandler sampleEnv sampleServer echoHandler (NewRecorder none)
        sampleRequest).w.body = [104, 105] :=
  ⟨Or.inr (by decide), by decide,
    (round_trip sampleEnv sampleServer echoHandler sampleRequest "text/plain" [104, 105]
      (Or.inr (by decide)) sampleRequest_readable (by decide)).2.2 (by decide),
    (round_trip sampleEnv sampleServer echoHandler sampleRequest "text/plain" [104, 105]
      (Or.inr (by decide)) sampleRequest_readable (by decide)).1⟩

/-- C10, as stated, fails: a result with a content type and non-nil data of
length zero makes the pipeline set the content-type header from the result and
write, which puts the status line on the response. -/
theorem empty_data_counterexample :
    typedEmptyHandler (carrierContext sampleRequest) (captureEvent sampleRequest).1 =
        (some ⟨"text/plain", some []⟩, none) ∧
      (invocationHandler sampleEnv sampleServer typedEmptyHandler (NewRecorder none)
        sampleRequest).w.header.Get "Content-type" = "text/plain" ∧
      (invocationHandler sampleEnv sampleServer typedEmptyHandler (NewRecorder none)
        sampleRequest).w.header.entries ≠ [] ∧
      (invocationHandler sampleEnv sampleServer typedEmptyHandler (NewRecorder none)
        sampleRequest).w ≠ NewRecorder none := by
  decide

/-- C10, amended: for a request that reaches the handler, if the handler
returns no error and either a nil result or a result whose data is nil,
whatever its content type, the response writer is left untouched: on a fresh
response the status is the default 200, the body is empty and no header is
set. If the data is non-nil and of length zero, the pipeline does write: when
the write reports no error the body is still empty and the status still 200,
and the content-type header is the result's content type (no header when that
is empty). -/
theorem empty_result_reply (env : Env) (s : Server) (fn : ServiceInvocationHandler)
    (r : Request) (o : Option InvocationResult)
    (hauth : s.authToken = "" ∨ r.Header.Get env.APITokenKey = s.authToken)
    (hbody : ∀ b, r.Body = some b → b.err = none)
    (hfn : fn (carrierContext r) (captureEvent r).1 = (o, none)) :
    ((∀ res, o = some res → res.Data = none) →
      (∀ w : ResponseWriter, (invocationHandler env s fn w r).w = w) ∧
      ∀ we : Option String,
        (invocationHandler env s fn (NewRecorder we) r).w.Code = 200 ∧
        (invocationHandler env s fn (NewRecorder we) r).w.body = [] ∧
        (invocationHandler env s fn (NewRecorder we) r).w.header.entries = []) ∧
    (∀ X : String, o = some ⟨X, some []⟩ →
      (invocationHandler env s fn (NewRecorder none) r).w.body = [] ∧
      (invocationHandler env s fn (NewRecorder none) r).w.Code = 200 ∧
      (invocationHandler env s fn (NewRecorder none) r).w.header.Get "Content-type" = X ∧
      (X = "" → (invocationHandler env s fn (NewRecorder none) r).w.header.entries = [])) := by
  constructor
  · intro hnil
    have hw : ∀ w : ResponseWriter, (invocationHandler env s fn w r).w = w := by
      intro w
      rw [handler_of_admitted env s fn w r hauth hbody, hfn]
      show writeResult env.DetectContentType w o = w
      cases o with
      | none => rfl
      | some res =>
        have hd := hnil res rfl
        unfold writeResult
        simp [hd]
    refine ⟨hw, fun we => ?_⟩
    rw [hw]
    exact ⟨rfl, rfl, rfl⟩
  · intro X hX
    subst hX
    have h := reply_of_data env s fn r X [] hauth hbody hfn
    exact ⟨h.1, h.2.1, (h.2.2.2 rfl).1, (h.2.2.2 rfl).2⟩

theorem empty_result_reply_witness :
    (sampleServer.authToken = "" ∨
        sampleRequest.Header.Get sampleEnv.APITokenKey = sampleServer.authToken) ∧
      nilHandler (carrierContext sampleRequest) (captureEvent sampleRequest).1 = (none, none) ∧
      (invocationHandler sampleEnv sampleServer nilHandler (NewRecorder none) sampleRequest).w =
        NewRecorder none :=
  ⟨Or.inr (by decide), rfl,
    ((empty_result_reply sampleEnv sampleServer nilHandler sampleRequest none
      (Or.inr (by decide)) sampleRequest_readable rfl).1
        (fun _ h => by cases h)).1 (NewRecorder none)⟩

/-! ## Carrier metadata -/

theorem lookup_filter_ne (m : Entries) (k key : String) (h : key ≠ k) :
    (m.filter (fun e => e.1 != k)).lookup key = m.lookup key := by
  induction m with
  | nil => rfl
  | cons e m ih =>
    obtain ⟨a, b⟩ := e
    by_cases ha : a = k
    · subst ha
      have hk : (key == a) = false := by simpa using h
      simp [List.filter_cons, List.lookup_cons, hk, ih]
    · have hne : (a != k) = true := by simpa using ha
      simp only [List.filter_cons, hne, if_true, List.lookup_cons]
      rw [ih]

theorem lookup_assign (m : Entries) (k : String) (v : List String) (key : String) :
    (m.assign k v).lookup key = if key = k then some v else m.lookup key := by
  unfold Entries.assign
  by_cases h : key = k
  · subst h
    simp
  · have hk : (key == k) = false := by simpa using h
    rw [if_neg h, List.lookup_cons, hk]
    exact lookup_filter_ne m k key h

theorem mem_assign_key (m : Entries) (k : String) (v : List String) (P : String → Prop)
    (hm : ∀ e ∈ m, P e.1) (hk : P k) : ∀ e ∈ m.assign k v, P e.1 := by
  intro e he
  unfold Entries.assign at he
  rcases List.mem_cons.1 he with h | h
  · rw [h]; exact hk
  · exact hm e (List.mem_filter.1 h).1

section Fold

variable (active : String × List String → Bool)
variable (step : Entries → String × List String → Entries)
variable (hstep : ∀ m kv key, (step m kv).lookup key =
  if active kv = true ∧ ToLower kv.1 = key then some kv.2 else m.lookup key)

include hstep

theorem fold_lookup_untouched (hs : Entries) (key : String) :
    ∀ m : Entries, (∀ kv ∈ hs, active kv = true → ToLower kv.1 ≠ key) →
      (hs.foldl step m).lookup key = m.lookup key := by
  induction hs with
  | nil => intro m _; rfl
  | cons x xs ih =>
    intro m h
    rw [List.foldl_cons, ih (step m x) (fun kv hkv => h kv (List.mem_cons_of_mem _ hkv)), hstep]
    rw [if_neg]
    rintro ⟨h1, h2⟩
    exact h x (List.mem_cons_self _ _) h1 h2

theorem fold_lookup_keep (hs : Entries) (key : String) (v : List String) :
    ∀ m : Entries, m.lookup key = some v →
      (∀ kv ∈ hs, active kv = true → ToLower kv.1 = key → kv.2 = v) →
      (hs.foldl step m).lookup key = some v := by
  induction hs with
  | nil => intro m hm _; exact hm
  | cons x xs ih =>
    intro m hm h
    rw [List.foldl_cons]
    apply ih (step m x) _ (fun kv hkv => h kv (List.mem_cons_of_mem _ hkv))
    rw [hstep]
    by_cases hx : active x = true ∧ ToLower x.1 = key
    · rw [if_pos hx, h x (List.mem_cons_self _ _) hx.1 hx.2]
    · rw [if_neg hx]; exact hm

theorem fold_lookup_mem (hs : Entries) (key : String) (kv : String × List String) :
    ∀ m : Entries, kv ∈ hs → active kv = true → ToLower kv.1 = key →
      (∀ kv2 ∈ hs, active kv2 = true → ToLower kv2.1 = key → kv2.2 = kv.2) →
      (hs.foldl step m).lookup key = some kv.2 := by
  induction hs with
  | nil => intro m hmem; cases hmem
  | cons x xs ih =>
    intro m hmem hact hkey h
    rw [List.foldl_cons]
    rcases List.mem_cons.1 hmem with heq | hin
    · subst heq
      apply fold_lookup_keep active step hstep xs key kv.2 (step m kv) _
        (fun kv2 hkv2 => h kv2 (List.mem_cons_of_mem _ hkv2))
      rw [hstep, if_pos ⟨hact, hkey⟩]
    · exact ih (step m x) hin hact hkey (fun kv2 hkv2 => h kv2 (List.mem_cons_of_mem _ hkv2))

end Fold

theorem fold_keys (step : Entries → String × List String → Entries) (P : String → Prop)
    (hP : ∀ m kv, (∀ e ∈ m, P e.1) → ∀ e ∈ step m kv, P e.1) (hs : Entries) :
    ∀ m : Entries, (∀ e ∈ m, P e.1) → ∀ e ∈ hs.foldl step m, P e.1 := by
  induction hs with
  | nil => intro m hm; exact hm
  | cons x xs ih =>
    intro m hm
    rw [List.foldl_cons]
    exact ih (step m x) (hP m x hm)

/-- One step of the header loop, on the entries of the metadata. -/
theorem set_entries (md : MD) (kv : String × List String) :
    (md.Set kv.1 kv.2).entries =
      if kv.2.isEmpty then md.entries else md.entries.assign (ToLower kv.1) kv.2 := by
  unfold MD.Set
  split <;> rfl

theorem headerFold_entries (hs : Entries) :
    ∀ md : MD, (hs.foldl (fun md kv => md.Set kv.1 kv.2) md).entries =
      hs.foldl (fun m kv => if kv.2.isEmpty then m else m.assign (ToLower kv.1) kv.2)
        md.entries := by
  induction hs with
  | nil => intro md; rfl
  | cons x xs ih =>
    intro md
    rw [List.foldl_cons, List.foldl_cons, ih, set_entries]

theorem headerStep_lookup (m : Entries) (kv : String × List String) (key : String) :
    (if kv.2.isEmpty then m else m.assign (ToLower kv.1) kv.2).lookup key =
      if (!kv.2.isEmpty) = true ∧ ToLower kv.1 = key then some kv.2 else m.lookup key := by
  by_cases he : kv.2.isEmpty = true
  · simp [he]
  · simp only [he, Bool.false_eq_true, if_false, lookup_assign, Bool.not_eq_true] at *
    simp only [he, Bool.not_false, true_and]
    by_cases hk : key = ToLower kv.1
    · rw [if_pos hk, if_pos hk.symm]
    · rw [if_neg hk, if_neg (fun h => hk h.symm)]

theorem copyStep_lookup (m : Entries) (kv : String × List String) (key : String) :
    (m.assign (ToLower kv.1) kv.2).lookup key =
      if (true = true) ∧ ToLower kv.1 = key then some kv.2 else m.lookup key := by
  rw [lookup_assign]
  by_cases hk : key = ToLower kv.1
  · rw [if_pos hk, if_pos ⟨rfl, hk.symm⟩]
  · rw [if_neg hk, if_neg (fun h => hk h.2.symm)]

theorem isEmpty_false_of_ne {v : List String} (h : v ≠ []) : (!v.isEmpty) = true := by
  cases v with
  | nil => exact absurd rfl h
  | cons _ _ => rfl

theorem ne_of_isEmpty_false {v : List String} (h : (!v.isEmpty) = true) : v ≠ [] := by
  cases v with
  | nil => simp at h
  | cons _ _ => simp

/-- The metadata handed to the handler, as entries. -/
theorem carrierContext_md (r : Request) :
    ∃ md : MD, carrierContext r = ⟨some md⟩ ∧
      md.entries =
        r.Header.entries.foldl
          (fun m kv => if kv.2.isEmpty then m else m.assign (ToLower kv.1) kv.2)
          (match r.Context.incomingMD with
            | none => []
            | some md0 => md0.entries.foldl (fun out kv => out.assign (ToLower kv.1) kv.2) []) := by
  refine ⟨_, rfl, ?_⟩
  rw [headerFold_entries]
  unfold FromIncomingContext
  cases r.Context.incomingMD <;> rfl

theorem carrier_props (r : Request) :
    ∃ md : MD, carrierContext r = ⟨some md⟩ ∧
      (∀ kv ∈ r.Header.entries, kv.2 ≠ [] →
        (∀ kv2 ∈ r.Header.entries, kv2.2 ≠ [] → ToLower kv2.1 = ToLower kv.1 → kv2.2 = kv.2) →
        md.Get kv.1 = kv.2) ∧
      (∀ md0, r.Context.incomingMD = some md0 → ∀ kv ∈ md0.entries,
        (∀ kv2 ∈ r.Header.entries, kv2.2 ≠ [] → ToLower kv2.1 ≠ ToLower kv.1) →
        (∀ kv2 ∈ md0.entries, ToLower kv2.1 = ToLower kv.1 → kv2.2 = kv.2) →
        md.Get kv.1 = kv.2) ∧
      (∀ k : String,
        (∀ kv2 ∈ r.Header.entries, kv2.2 ≠ [] → ToLower kv2.1 ≠ ToLower k) →
        (∀ md0, r.Context.incomingMD = some md0 →
          ∀ kv2 ∈ md0.entries, ToLower kv2.1 ≠ ToLower k) →
        md.Get k = []) ∧
      (∀ kv ∈ md.entries, ∃ k : String, kv.1 = ToLower k) := by
  obtain ⟨md, hctx, hent⟩ := carrierContext_md r
  refine ⟨md, hctx, ?_, ?_, ?_, ?_⟩
  · intro kv hkv hne huniq
    unfold MD.Get
    rw [hent, fold_lookup_mem (fun kv => !kv.2.isEmpty) _ headerStep_lookup r.Header.entries
      (ToLower kv.1) kv _ hkv (isEmpty_false_of_ne hne) rfl
      (fun kv2 h2 hact hkey => huniq kv2 h2 (ne_of_isEmpty_false hact) hkey)]
    rfl
  · intro md0 hmd0 kv hkv hnohdr huniq
    unfold MD.Get
    rw [hent, hmd0, fold_lookup_untouched (fun kv => !kv.2.isEmpty) _ headerStep_lookup
      r.Header.entries (ToLower kv.1) _
      (fun kv2 h2 hact => hnohdr kv2 h2 (ne_of_isEmpty_false hact))]
    simp only
    rw [fold_lookup_mem (fun _ => true) _ copyStep_lookup md0.entries (ToLower kv.1) kv [] hkv
      rfl rfl (fun kv2 h2 _ hkey => huniq kv2 h2 hkey)]
    rfl
  · intro k hnohdr hnomd
    unfold MD.Get
    rw [hent, fold_lookup_untouched (fun kv => !kv.2.isEmpty) _ headerStep_lookup
      r.Header.entries (ToLower k) _
      (fun kv2 h2 hact => hnohdr kv2 h2 (ne_of_isEmpty_false hact))]
    cases hmd0 : r.Context.incomingMD with
    | none => rfl
    | some md0 =>
      simp only
      rw [fold_lookup_untouched (fun _ => true) _ copyStep_lookup md0.entries (ToLower k) []
        (fun kv2 h2 _ => hnomd md0 hmd0 kv2 h2)]
      rfl
  · rw [hent]
    apply fold_keys _ (fun k => ∃ k2 : String, k = ToLower k2)
    · intro m kv hm
      by_cases he : kv.2.isEmpty = true
      · simpa [he] using hm
      · simp only [he, Bool.false_eq_true, if_false]
        exact mem_assign_key m _ _ (fun k => ∃ k2 : String, k = ToLower k2) hm ⟨kv.1, rfl⟩
    · cases r.Context.incomingMD with
      | none => intro e he; cases he
      | some md0 =>
        simp only
        apply fold_keys _ (fun k => ∃ k2 : String, k = ToLower k2)
        · intro m kv hm
          exact mem_assign_key m _ _ (fun k => ∃ k2 : String, k = ToLower k2) hm ⟨kv.1, rfl⟩
        · intro e he; cases he

/-- C8, as stated, fails. With the header `A: 1` on a context carrying `B: 2`
the handler gets a carrier whose keys are `a` and `b`: neither `A` nor `B` is
a key of it. A header key without values does not replace the values the
carrier had under that key. Of two header keys that differ in letter case only,
one maps to the values of the other. -/
theorem carrier_metadata_counterexample :
    handlerContexts (invocationHandler sampleEnv openServer echoHandler (NewRecorder none)
        headerARequest).trace = [⟨some ⟨[("a", ["1"]), ("b", ["2"])]⟩⟩] ∧
      (MD.mk [("a", ["1"]), ("b", ["2"])]).entries.lookup "A" = none ∧
      (MD.mk [("a", ["1"]), ("b", ["2"])]).entries.lookup "B" = none ∧
      handlerContexts (invocationHandler sampleEnv openServer echoHandler (NewRecorder none)
        valuelessHeaderRequest).trace = [⟨some ⟨[("b", ["2"])]⟩⟩] ∧
      (MD.mk [("b", ["2"])]).Get "B" ≠ [] ∧
      handlerContexts (invocationHandler sampleEnv openServer echoHandler (NewRecorder none)
        collidingHeaderRequest).trace = [⟨some ⟨[("a", ["2"])]⟩⟩] ∧
      (MD.mk [("a", ["2"])]).Get "A" ≠ ["1"] := by
  decide

/-- C8, amended: the context the handler receives carries the metadata of the
incoming context (empty if none) merged with the request headers, under
lower-cased keys and looked up without regard to letter case. Every header key
that has at least one value maps to that header's values, replacing prior
values, provided no other header with values has the same key up to letter
case and different values. Every key of the original metadata keeps its
values provided no header with values and no other original key coincides
with it up to letter case. A key that is neither, up to letter case, has no
values. All keys of the carrier are lower-cased. -/
theorem carrier_metadata_merge (env : Env) (s : Server) (fn : ServiceInvocationHandler)
    (w : ResponseWriter) (r : Request)
    (hauth : s.authToken = "" ∨ r.Header.Get env.APITokenKey = s.authToken)
    (hbody : ∀ b, r.Body = some b → b.err = none) :
    ∃ (md : MD) (e : InvocationEvent),
      (invocationHandler env s fn w r).trace =
        bodyTrace r ++ [Effect.invoke ⟨some md⟩ e] ∧
      (∀ kv ∈ r.Header.entries, kv.2 ≠ [] →
        (∀ kv2 ∈ r.Header.entries, kv2.2 ≠ [] → ToLower kv2.1 = ToLower kv.1 → kv2.2 = kv.2) →
        md.Get kv.1 = kv.2) ∧
      (∀ md0, r.Context.incomingMD = some md0 → ∀ kv ∈ md0.entries,
        (∀ kv2 ∈ r.Header.entries, kv2.2 ≠ [] → ToLower kv2.1 ≠ ToLower kv.1) →
        (∀ kv2 ∈ md0.entries, ToLower kv2.1 = ToLower kv.1 → kv2.2 = kv.2) →
        md.Get kv.1 = kv.2) ∧
      (∀ k : String,
        (∀ kv2 ∈ r.Header.entries, kv2.2 ≠ [] → ToLower kv2.1 ≠ ToLower k) →
        (∀ md0, r.Context.incomingMD = some md0 →
          ∀ kv2 ∈ md0.entries, ToLower kv2.1 ≠ ToLower k) →
        md.Get k = []) ∧
      (∀ kv ∈ md.entries, ∃ k : String, kv.1 = ToLower k) := by
  obtain ⟨md, hctx, hprops⟩ := carrier_props r
  refine ⟨md, (captureEvent r).1, ?_, hprops⟩
  rw [handler_of_admitted env s fn w r hauth hbody, hctx]
  rcases hfn : fn ⟨some md⟩ (captureEvent r).1 with ⟨o, err⟩
  cases err <;> rfl

theorem carrier_metadata_merge_witness :
    (openServer.authToken = "" ∨
        headerARequest.Header.Get sampleEnv.APITokenKey = openServer.authToken) ∧
      ∃ (md : MD) (e : InvocationEvent),
        (invocationHandler sampleEnv openServer echoHandler (NewRecorder none)
          headerARequest).trace = bodyTrace headerARequest ++ [Effect.invoke ⟨some md⟩ e] ∧
        md.Get "A" = ["1"] ∧ md.Get "B" = ["2"] :=
  ⟨Or.inl rfl,
    let ⟨md, e, h1, h2, h3, _⟩ := carrier_metadata_merge sampleEnv openServer echoHandler
      (NewRecorder none) headerARequest (Or.inl rfl) (fun b hb => by cases hb)
    ⟨md, e, h1,
      h2 ("A", ["1"]) (by decide) (by decide) (by
        intro kv2 h2 _ _
        simp only [headerARequest, List.mem_singleton] at h2
        rw [h2]),
      h3 ⟨[("B", ["2"])]⟩ rfl ("B", ["2"]) (by decide) (by
        intro kv2 h2 _
        simp only [headerARequest, List.mem_singleton] at h2
        rw [h2]
        decide) (by
        intro kv2 h2 _
        simp only [List.mem_singleton] at h2
        rw [h2])⟩⟩

end DaprHttp
